import Mathlib

/-!
Verification of the extraction-and-novelty-detection engine of
`src/multi_government_scraper.py` (a monitor for three government sources:
Alberta Legislature, House of Commons, Strathcona County Council).

The Python code is shallowly embedded:

* The regex `(\w+)\s+(\d+),\s+(\d{4})` used by every scraper is embedded as
  an executable leftmost-match searcher over character lists (`searchDate`).
  For this pattern greedy matching never needs backtracking (the character
  classes of adjacent pieces are disjoint), so maximal-munch scanning is
  exact.  Character classes are the ASCII readings of `\w`, `\d`, `\s`.
* BeautifulSoup documents are embedded post-parse, at the granularity the
  code reads them: the Alberta page as the list of text nodes (with the
  hrefs of the links below each node's parent, in document order), the
  House of Commons page as its optional title text, the Strathcona page as
  its list of links (href, link text, parent text).
* `requests` fetches are embedded as `Except String markup` inputs: the
  code's `try ... except` around a fetch corresponds to the `.error` case.
* Python `datetime(year, month, day)` is embedded as `pyDatetime`,
  returning `none` exactly when Python raises (invalid calendar date), and
  Python `datetime` comparison as lexicographic order on
  (year, month, day, time-of-day).
* `list.sort(key=..., reverse=True)` is embedded as a stable descending
  insertion sort (`pySortDesc`) on the code's actual sort key
  `(year, month-string, day)` — note the month STRING, as in the source.
-/

/-- ASCII reading of the regex class `\w`: letters, digits, underscore. -/
def isWordChar (c : Char) : Bool := c.isAlpha || c.isDigit || c == '_'

/-- ASCII reading of the regex class `\d`. -/
def isDigitChar (c : Char) : Bool := c.isDigit

/-- ASCII reading of the regex class `\s`. -/
def isSpaceChar (c : Char) : Bool := c.isWhitespace

/-- Value of a decimal digit string, as Python's `int`. -/
def natOfDigits (l : List Char) : Nat := l.foldl (fun n c => n * 10 + (c.toNat - 48)) 0

/-- Does `p` start the list `s`?  (Python `str.startswith`, on characters.) -/
def listStarts : List Char → List Char → Bool
  | [], _ => true
  | _ :: _, [] => false
  | a :: ps, b :: ss => a == b && listStarts ps ss

/-- Does `sub` occur contiguously in `s`?  (Python `in` on strings.) -/
def hasSub (sub : List Char) : List Char → Bool
  | [] => sub.isEmpty
  | c :: rest => listStarts sub (c :: rest) || hasSub sub rest

/-- Python `s.startswith(p)`. -/
def strStartsWith (s p : String) : Bool := listStarts p.toList s.toList

/-- Python `sub in s`. -/
def strContainsSub (s sub : String) : Bool := hasSub sub.toList s.toList

/-- Python `s.lower()` (ASCII). -/
def strLower (s : String) : String := String.mk (s.toList.map Char.toLower)

/-- Python `s.strip()`: drop leading and trailing whitespace. -/
def strStrip (s : String) : String :=
  String.mk (((s.toList.dropWhile isSpaceChar).reverse.dropWhile isSpaceChar).reverse)

/-- Strict code-point order on characters (Python `<` on single characters). -/
def charLt (a b : Char) : Bool := decide (a.toNat < b.toNat)

/-- Python string `<`: lexicographic by code point, a proper initial segment
is smaller. -/
def listCharLt : List Char → List Char → Bool
  | [], [] => false
  | [], _ :: _ => true
  | _ :: _, [] => false
  | a :: as, b :: bs => charLt a b || (a == b && listCharLt as bs)

/-- Python `s < t` on strings. -/
def strLt (s t : String) : Bool := listCharLt s.toList t.toList

/-- Match of the regex `(\w+)\s+(\d+),\s+(\d{4})` anchored at the head of the
character list: `(month word, day, year)`.  Each `+` piece takes its maximal
run; since the classes on both sides of every junction are disjoint (and a
digit is not a comma), a shorter run could never make the next piece match,
so this equals the backtracking semantics of `re`. -/
def matchDateAt (cs : List Char) : Option (String × Nat × Nat) :=
  let (w, rest1) := cs.span isWordChar
  if w.isEmpty then none else
  let (s1, rest2) := rest1.span isSpaceChar
  if s1.isEmpty then none else
  let (d, rest3) := rest2.span isDigitChar
  if d.isEmpty then none else
  match rest3 with
  | ',' :: rest4 =>
    let (s2, rest5) := rest4.span isSpaceChar
    if s2.isEmpty then none else
    match rest5 with
    | a :: b :: c :: e :: _ =>
      if isDigitChar a && isDigitChar b && isDigitChar c && isDigitChar e then
        some (String.mk w, natOfDigits d, natOfDigits [a, b, c, e])
      else none
    | _ => none
  | _ => none

/-- Leftmost match of the date regex in a character list, as `re.search`. -/
def searchDateList : List Char → Option (String × Nat × Nat)
  | [] => none
  | c :: rest =>
    match matchDateAt (c :: rest) with
    | some r => some r
    | none => searchDateList rest

/-- Python `re.search(r'(\w+)\s+(\d+),\s+(\d{4})', s)`, yielding the three
captured groups `(month word, day as int, year as int)`. -/
def searchDate (s : String) : Option (String × Nat × Nat) := searchDateList s.toList

/-- Python `datetime` value: time-of-day is kept abstract as one `Nat` of
sub-day ticks (items are built at midnight, `tod = 0`).  Comparison is
lexicographic, as `datetime` comparison in Python. -/
structure PyDT where
  year : Nat
  month : Nat
  day : Nat
  tod : Nat
deriving DecidableEq, Repr

/-- Gregorian leap year, as `datetime` uses. -/
def isLeapYear (y : Nat) : Bool := (y % 4 == 0 && y % 100 != 0) || y % 400 == 0

/-- Length of a month, as `datetime` validates. -/
def daysInMonth (y m : Nat) : Nat :=
  if m = 2 then (if isLeapYear y then 29 else 28)
  else if m = 4 ∨ m = 6 ∨ m = 9 ∨ m = 11 then 30
  else 31

/-- Python `datetime(year, month, day)`: `none` exactly when the constructor
raises (year outside 1..9999, month outside 1..12, day outside the month). -/
def pyDatetime (y m d : Nat) : Option PyDT :=
  if 1 ≤ y ∧ y ≤ 9999 ∧ 1 ≤ m ∧ m ≤ 12 ∧ 1 ≤ d ∧ d ≤ daysInMonth y m then
    some ⟨y, m, d, 0⟩
  else none

/-- Python `<` on `datetime` values: lexicographic on
(year, month, day, time-of-day). -/
def pyDTltP (a b : PyDT) : Prop :=
  a.year < b.year ∨ (a.year = b.year ∧ (a.month < b.month ∨ (a.month = b.month ∧
    (a.day < b.day ∨ (a.day = b.day ∧ a.tod < b.tod)))))

instance (a b : PyDT) : Decidable (pyDTltP a b) := by
  unfold pyDTltP; exact inferInstance

/-- Strict lexicographic order on date triples `(year, month, day)`: the
comparison order of §3 of the specification. -/
def tripleLtP (a b : Nat × Nat × Nat) : Prop :=
  a.1 < b.1 ∨ (a.1 = b.1 ∧ (a.2.1 < b.2.1 ∨ (a.2.1 = b.2.1 ∧ a.2.2 < b.2.2)))

instance (a b : Nat × Nat × Nat) : Decidable (tripleLtP a b) := by
  unfold tripleLtP; exact inferInstance

/-- Lookup in an association list by string key, as Python `dict.get` on the
scrapers' month tables (all their keys are distinct). -/
def lookupStr (s : String) : List (String × Nat) → Option Nat
  | [] => none
  | (k, v) :: rest => if s = k then some v else lookupStr s rest

/-- The `month_map` of `AlbertaLegislatureScraper.check_for_new`:
three-letter abbreviations only. -/
def albertaMonthMap : List (String × Nat) :=
  [("Jan", 1), ("Feb", 2), ("Mar", 3), ("Apr", 4), ("May", 5), ("Jun", 6),
   ("Jul", 7), ("Aug", 8), ("Sep", 9), ("Oct", 10), ("Nov", 11), ("Dec", 12)]

/-- The `month_map` of `HouseOfCommonsScraper.check_for_new`: full month
names only. -/
def hocMonthMap : List (String × Nat) :=
  [("January", 1), ("February", 2), ("March", 3), ("April", 4),
   ("May", 5), ("June", 6), ("July", 7), ("August", 8),
   ("September", 9), ("October", 10), ("November", 11), ("December", 12)]

/-- The `month_map` of `StrathconaCountyScraper.check_for_new`: full names
and abbreviations, in the source's literal order (the abbreviation list of
the source skips `May`, already present). -/
def strathconaMonthMap : List (String × Nat) :=
  [("January", 1), ("February", 2), ("March", 3), ("April", 4),
   ("May", 5), ("June", 6), ("July", 7), ("August", 8),
   ("September", 9), ("October", 10), ("November", 11), ("December", 12),
   ("Jan", 1), ("Feb", 2), ("Mar", 3), ("Apr", 4), ("Jun", 6),
   ("Jul", 7), ("Aug", 8), ("Sep", 9), ("Oct", 10), ("Nov", 11), ("Dec", 12)]

/-- Ground-truth table of English month spellings (full names and
three-letter abbreviations) and their calendar month numbers, for stating
order-preservation against the true calendar. -/
def canonTable : List (String × Nat) :=
  [("January", 1), ("Jan", 1), ("February", 2), ("Feb", 2), ("March", 3),
   ("Mar", 3), ("April", 4), ("Apr", 4), ("May", 5), ("June", 6), ("Jun", 6),
   ("July", 7), ("Jul", 7), ("August", 8), ("Aug", 8), ("September", 9),
   ("Sep", 9), ("October", 10), ("Oct", 10), ("November", 11), ("Nov", 11),
   ("December", 12), ("Dec", 12)]

/-- Python `month_map.get(month, 1)`: the table's number, defaulting to 1. -/
def monthNumOf (table : List (String × Nat)) (s : String) : Nat :=
  (lookupStr s table).getD 1

/-- Alberta month normalization, `month_map.get(item['month'], 1)`. -/
def albertaMonthNum (s : String) : Nat := monthNumOf albertaMonthMap s

/-- House of Commons month normalization. -/
def hocMonthNum (s : String) : Nat := monthNumOf hocMonthMap s

/-- Strathcona month normalization. -/
def strathconaMonthNum (s : String) : Nat := monthNumOf strathconaMonthMap s

/-- Ground-truth month number of a recognized English spelling. -/
def canonMonthNum (s : String) : Option Nat := lookupStr s canonTable

/-- NormalizedDate of a raw `(month spelling, day, year)` triple under a
source's table: the `(year, month, day)` triple the scrapers build with
`datetime(item['year'], month_map.get(item['month'], 1), item['day'])`. -/
def normDate (table : List (String × Nat)) (s : String) (d y : Nat) : Nat × Nat × Nat :=
  (y, monthNumOf table s, d)

/-- One extracted entry, as the dicts the scrapers append: display text,
locator URL, raw month spelling, day, year, producing government. -/
structure Item where
  full_text : String
  locator : String
  month : String
  day : Nat
  year : Nat
  government : String
deriving DecidableEq, Repr

/-- The sort key `lambda x: (x['year'], x['month'], x['day'])` of
`get_latest_info` — the month is the raw STRING, exactly as in the source. -/
def sortKey (it : Item) : Nat × String × Nat := (it.year, it.month, it.day)

/-- Python tuple `<` on the sort key: ints numerically, the month string by
code points. -/
def sortKeyLt (a b : Nat × String × Nat) : Bool :=
  decide (a.1 < b.1) ||
    (a.1 == b.1 && (strLt a.2.1 b.2.1 || (a.2.1 == b.2.1 && decide (a.2.2 < b.2.2))))

/-- Insert into a descending-sorted list, after every element whose key is
greater or equal (stability). -/
def insertDesc (x : Item) : List Item → List Item
  | [] => [x]
  | y :: ys => if sortKeyLt (sortKey y) (sortKey x) then x :: y :: ys else y :: insertDesc x ys

/-- Python `entries.sort(key=lambda x: (x['year'], x['month'], x['day']),
reverse=True)`: stable descending sort by the (year, month-string, day)
key. -/
def pySortDesc (l : List Item) : List Item :=
  l.foldl (fun acc x => insertDesc x acc) []

/-- Resolution of a possibly relative href against a base origin:
`base + href if not href.startswith('http') else href`. -/
def resolveURL (base href : String) : String :=
  if strStartsWith href "http" then href else base ++ href

/-- The Alberta scraper's `BASE_URL`. -/
def albertaBase : String := "https://www.assembly.ab.ca"

/-- The House of Commons scraper's `BASE_URL`. -/
def hocBase : String := "https://www.ourcommons.ca"

/-- The House of Commons scraper's `DEBATES_URL`. -/
def hocDebatesURL : String := hocBase ++ "/documentviewer/en/house/latest/hansard"

/-- The Strathcona scraper's `BASE_URL`. -/
def scBase : String := "https://pub-strathcona.escribemeetings.com"

/-- One text node of the parsed Alberta transcripts page, with the hrefs of
the `<a href=...>` links below the node's parent, in document order. -/
structure AlbertaNode where
  text : String
  hrefs : List String
deriving DecidableEq, Repr

/-- The parsed Alberta page: its text nodes in document order. -/
abbrev AlbertaMarkup := List AlbertaNode

/-- Candidate entry of one Alberta text node, as the loop body of
`AlbertaLegislatureScraper.get_latest_info`: the node must match the date
regex (the `find_all(text=...)` filter), the first nearby href containing
`pdf` (lowercased) is resolved, and the date groups are re-extracted. -/
def albertaEntryOf (node : AlbertaNode) : Option Item :=
  if (searchDate node.text).isSome then
    match node.hrefs.find? (fun h => strContainsSub (strLower h) "pdf") with
    | some href =>
      match searchDate node.text with
      | some (mo, d, y) =>
        some ⟨strStrip node.text, resolveURL albertaBase href, mo, d, y,
          "Alberta Legislature"⟩
      | none => none
    | none => none
  else none

/-- `AlbertaLegislatureScraper.get_latest_info`'s `latest_items`: entries in
document order, sorted descending by the (year, month-string, day) key,
capped at 5. -/
def albertaLatestItems (m : AlbertaMarkup) : List Item :=
  (pySortDesc (m.filterMap albertaEntryOf)).take 5

/-- The parsed House of Commons page: its title text, when a `<title>`
exists. -/
abbrev HocMarkup := Option String

/-- `HouseOfCommonsScraper.get_latest_info`'s `latest_items`: the first date
pattern of the title text yields the single item. -/
def hocLatestItems (t : HocMarkup) : List Item :=
  match t with
  | none => []
  | some titleText =>
    match searchDate titleText with
    | some (mo, d, y) =>
      [⟨titleText, hocDebatesURL, mo, d, y, "House of Commons (Canada)"⟩]
    | none => []

/-- One link of the parsed Strathcona meetings page: href, link text, and
the text of the link's parent (empty when the link has no parent). -/
structure SCLink where
  href : String
  text : String
  parentText : String
deriving DecidableEq, Repr

/-- Candidate entry of one Strathcona link, as the loop body of
`StrathconaCountyScraper.get_latest_info`: the stripped link text must
contain `council` and `agenda` or `minutes` (lowercased), and the parent
text must contain a date pattern. -/
def scEntryOf (l : SCLink) : Option Item :=
  let t := strStrip l.text
  if strContainsSub (strLower t) "council" &&
      (strContainsSub (strLower t) "agenda" || strContainsSub (strLower t) "minutes") then
    match searchDate l.parentText with
    | some (mo, d, y) =>
      some ⟨t, resolveURL scBase l.href, mo, d, y, "Strathcona County Council"⟩
    | none => none
  else none

/-- `StrathconaCountyScraper.get_latest_info`'s `latest_items`. -/
def strathconaLatestItems (m : List SCLink) : List Item :=
  (pySortDesc (m.filterMap scEntryOf)).take 5

/-- The `if not last_check_date` branch of every scraper's `check_for_new`:
`latest = items[0] if items else None; return True, [latest] if latest
else []` — note the tuple is `(True, ...)` in BOTH cases, by Python's
conditional-expression precedence. -/
def noRefPair (items : List Item) : Bool × List Item :=
  (true, match items.head? with
         | some latest => [latest]
         | none => [])

/-- The comparison loop of `check_for_new` with a reference: keep each item
whose `datetime(year, month_map.get(month, 1), day)` builds and exceeds
`last_check`; a raising constructor hits `except: continue` and drops only
that item. -/
def newItemsFor (monthNum : String → Nat) (items : List Item) (r : PyDT) : List Item :=
  items.filter (fun it =>
    match pyDatetime it.year (monthNum it.month) it.day with
    | some d => decide (pyDTltP r d)
    | none => false)

/-- The with-reference result of `check_for_new`:
`return len(new_items) > 0, new_items`. -/
def checkWithRef (monthNum : String → Nat) (items : List Item) (r : PyDT) :
    Bool × List Item :=
  let ns := newItemsFor monthNum items r
  (decide (0 < ns.length), ns)

/-- `AlbertaLegislatureScraper.check_for_new`: a failed fetch returns
`(False, [])`; no reference returns the no-reference pair; otherwise the
comparison loop over the extracted items. -/
def albertaCheckForNew (fetch : Except String AlbertaMarkup) (ref : Option PyDT) :
    Bool × List Item :=
  match fetch with
  | .error _ => (false, [])
  | .ok m =>
    match ref with
    | none => noRefPair (albertaLatestItems m)
    | some r => checkWithRef albertaMonthNum (albertaLatestItems m) r

/-- `HouseOfCommonsScraper.check_for_new`. -/
def hocCheckForNew (fetch : Except String HocMarkup) (ref : Option PyDT) :
    Bool × List Item :=
  match fetch with
  | .error _ => (false, [])
  | .ok t =>
    match ref with
    | none => noRefPair (hocLatestItems t)
    | some r => checkWithRef hocMonthNum (hocLatestItems t) r

/-- `StrathconaCountyScraper.check_for_new`. -/
def strathconaCheckForNew (fetch : Except String (List SCLink)) (ref : Option PyDT) :
    Bool × List Item :=
  match fetch with
  | .error _ => (false, [])
  | .ok m =>
    match ref with
    | none => noRefPair (strathconaLatestItems m)
    | some r => checkWithRef strathconaMonthNum (strathconaLatestItems m) r

/-- Items a fetch outcome extracts for the Alberta source (none when the
fetch failed and extraction never runs). -/
def albertaItemsOf : Except String AlbertaMarkup → List Item
  | .error _ => []
  | .ok m => albertaLatestItems m

/-- Items a fetch outcome extracts for the House of Commons source. -/
def hocItemsOf : Except String HocMarkup → List Item
  | .error _ => []
  | .ok t => hocLatestItems t

/-- Items a fetch outcome extracts for the Strathcona source. -/
def strathconaItemsOf : Except String (List SCLink) → List Item
  | .error _ => []
  | .ok m => strathconaLatestItems m

/-- One entry of `check_all`'s `results['governments']`: exactly the keys
the code writes — `name`, `has_new_content`, `new_items`.  There is no
error field. -/
structure GovEntry where
  name : String
  has_new_content : Bool
  new_items : List Item
deriving DecidableEq, Repr

/-- `check_all`'s result: `checked_at` and the three per-source entries. -/
structure CheckResult where
  checked_at : String
  governments : List GovEntry
deriving DecidableEq, Repr

/-- The raw markup (or fetch failure) each of the three sources returns for
one `check_all` invocation. -/
structure FetchResults where
  alberta : Except String AlbertaMarkup
  hoc : Except String HocMarkup
  strathcona : Except String (List SCLink)

/-- `MultiGovernmentMonitor.check_all`: the scrapers run in the fixed order
Alberta, House of Commons, Strathcona; `now` stands for the
`datetime.now().isoformat()` timestamp. -/
def check_all (now : String) (f : FetchResults) (ref : Option PyDT) : CheckResult :=
  { checked_at := now
    governments :=
      [ { name := "Alberta Legislature"
          has_new_content := (albertaCheckForNew f.alberta ref).1
          new_items := (albertaCheckForNew f.alberta ref).2 },
        { name := "House of Commons (Canada)"
          has_new_content := (hocCheckForNew f.hoc ref).1
          new_items := (hocCheckForNew f.hoc ref).2 },
        { name := "Strathcona County Council"
          has_new_content := (strathconaCheckForNew f.strathcona ref).1
          new_items := (strathconaCheckForNew f.strathcona ref).2 } ] }

/-- Alberta page with two dated, PDF-linked entries in the same year whose
month strings order against their calendar order ("Sep" sorts above "Oct"
as strings). -/
def c1AlbertaMarkup : AlbertaMarkup :=
  [⟨"Oct 2, 2025", ["/docs/a.pdf"]⟩, ⟨"Sep 1, 2025", ["/docs/b.pdf"]⟩]

/-- Strathcona page with the same month-string inversion, full names. -/
def c1SCMarkup : List SCLink :=
  [⟨"/a", "Council Agenda", "October 2, 2025"⟩,
   ⟨"/b", "Council Minutes", "September 1, 2025"⟩]

/-- Item list of §8's worked example (Alberta month spellings). -/
def c2Items : List Item :=
  [⟨"Council Agenda", "u1", "Oct", 20, 2025, "Alberta Legislature"⟩,
   ⟨"Council Minutes", "u2", "Sep", 15, 2025, "Alberta Legislature"⟩]

/-- Reference timestamp of §8's worked example. -/
def c2Ref : PyDT := ⟨2025, 10, 1, 0⟩

/-- An arbitrary concrete reference timestamp. -/
def c4Ref : PyDT := ⟨2025, 1, 1, 0⟩

/-- An item whose normalized date is no calendar date (February 30). -/
def c5Bad : Item := ⟨"phantom", "u", "Feb", 30, 2025, "Alberta Legislature"⟩

/-- Valid items around the malformed one. -/
def c5Xs : List Item := [⟨"a", "u", "Dec", 10, 2025, "Alberta Legislature"⟩]

/-- Valid items after the malformed one. -/
def c5Ys : List Item := [⟨"b", "v", "Nov", 3, 2024, "Alberta Legislature"⟩]

/-- Reference older than both valid items. -/
def c5Ref : PyDT := ⟨2024, 1, 1, 0⟩

/-- Alberta page with one relative-href PDF entry. -/
def w8Alberta : AlbertaMarkup := [⟨"Dec 10, 2025", ["/docs/t.pdf"]⟩]

/-- House of Commons title with one date. -/
def w8Hoc : HocMarkup := some "Debates - October 20, 2025"

/-- Strathcona page with one council agenda link with a dated parent. -/
def w8SC : List SCLink := [⟨"/agenda1", "Council Agenda", "September 2, 2025"⟩]

/-- The item `w8Alberta` extracts: locator resolved against the base. -/
def w8ItemA : Item :=
  ⟨"Dec 10, 2025", "https://www.assembly.ab.ca/docs/t.pdf", "Dec", 10, 2025,
   "Alberta Legislature"⟩

/-- The item `w8Hoc` extracts: locator is the fixed debates URL. -/
def w8ItemH : Item :=
  ⟨"Debates - October 20, 2025", hocDebatesURL, "October", 20, 2025,
   "House of Commons (Canada)"⟩

/-- The item `w8SC` extracts: locator resolved against the base. -/
def w8ItemS : Item :=
  ⟨"Council Agenda", "https://pub-strathcona.escribemeetings.com/agenda1",
   "September", 2, 2025, "Strathcona County Council"⟩

/-- The no-reference branch returns `(True, ...)` with the one-element take
of the item list: `[latest] if latest else []` is `items.take 1`. -/
theorem noRefPair_eq (l : List Item) : noRefPair l = (true, l.take 1) := by
  cases l <;> rfl

/-- A successfully built `datetime` is the argument triple at midnight. -/
theorem pyDatetime_some {y m d : Nat} {dt : PyDT} (h : pyDatetime y m d = some dt) :
    dt = ⟨y, m, d, 0⟩ := by
  unfold pyDatetime at h
  split at h
  · exact (Option.some.inj h).symm
  · cases h

/-- Comparing any reference `datetime` against a midnight `datetime` is the
strict lexicographic comparison of the two date triples: the reference's
time-of-day can never matter because no midnight value exceeds it on equal
dates. -/
theorem pyDTlt_midnight_iff (r : PyDT) (y m d : Nat) :
    pyDTltP r ⟨y, m, d, 0⟩ ↔ tripleLtP (r.year, r.month, r.day) (y, m, d) := by
  unfold pyDTltP tripleLtP
  dsimp only
  omega

/-- Membership in an insertion keeps the inserted element or an old one. -/
theorem mem_insertDesc {x a : Item} : ∀ {l : List Item}, x ∈ insertDesc a l → x = a ∨ x ∈ l := by
  intro l
  induction l with
  | nil =>
    intro h
    simp only [insertDesc, List.mem_singleton] at h
    exact Or.inl h
  | cons y ys ih =>
    intro h
    unfold insertDesc at h
    split at h
    · rcases List.mem_cons.mp h with h | h
      · exact Or.inl h
      · exact Or.inr h
    · rcases List.mem_cons.mp h with h | h
      · exact Or.inr (by simp [h])
      · rcases ih h with h | h
        · exact Or.inl h
        · exact Or.inr (List.mem_cons_of_mem _ h)

/-- Membership after the insertion-sort fold comes from the accumulator or
the input. -/
theorem mem_foldl_insertDesc {x : Item} :
    ∀ (l acc : List Item), x ∈ l.foldl (fun acc y => insertDesc y acc) acc →
      x ∈ acc ∨ x ∈ l := by
  intro l
  induction l with
  | nil => intro acc h; exact Or.inl h
  | cons a t ih =>
    intro acc h
    rcases ih (insertDesc a acc) h with h | h
    · rcases mem_insertDesc h with h | h
      · exact Or.inr (by simp [h])
      · exact Or.inl h
    · exact Or.inr (List.mem_cons_of_mem _ h)

/-- The stable descending sort permutes: every member was in the input. -/
theorem mem_pySortDesc {x : Item} {l : List Item} (h : x ∈ pySortDesc l) : x ∈ l := by
  rcases mem_foldl_insertDesc l [] h with h | h
  · cases h
  · exact h

/-- A successful association-list lookup exhibits its pair. -/
theorem mem_of_lookupStr :
    ∀ {l : List (String × Nat)} {s : String} {n : Nat},
      lookupStr s l = some n → (s, n) ∈ l := by
  intro l
  induction l with
  | nil => intro s n h; cases h
  | cons p rest ih =>
    intro s n h
    obtain ⟨k, v⟩ := p
    unfold lookupStr at h
    split at h
    · rename_i hk
      subst hk
      rw [Option.some.injEq] at h
      subst h
      exact List.mem_cons_self _ _
    · exact List.mem_cons_of_mem _ (ih h)

/-- Every pair of the Alberta table agrees with the true calendar. -/
theorem canon_alberta : ∀ p ∈ albertaMonthMap, canonMonthNum p.1 = some p.2 := by decide

/-- Every pair of the House of Commons table agrees with the true calendar. -/
theorem canon_hoc : ∀ p ∈ hocMonthMap, canonMonthNum p.1 = some p.2 := by decide

/-- Every pair of the Strathcona table agrees with the true calendar. -/
theorem canon_strathcona : ∀ p ∈ strathconaMonthMap, canonMonthNum p.1 = some p.2 := by decide

/-- A list starts with itself before any continuation. -/
theorem listStarts_append_self : ∀ (p t : List Char), listStarts p (p ++ t) = true := by
  intro p t
  induction p with
  | nil => rfl
  | cons c ps ih => simp [listStarts, ih]

/-- String concatenation starts with its left part. -/
theorem strStartsWith_append (s t : String) : strStartsWith (s ++ t) s = true := by
  unfold strStartsWith
  have h : (s ++ t).toList = s.toList ++ t.toList := by
    cases s; cases t; rfl
  rw [h]
  exact listStarts_append_self _ _

/-- A resolved URL starts with the base origin or with the markup's own
`http` prefix. -/
theorem resolveURL_abs (base href : String) :
    strStartsWith (resolveURL base href) base = true ∨
      strStartsWith (resolveURL base href) "http" = true := by
  unfold resolveURL
  split
  · rename_i hh
    exact Or.inr hh
  · exact Or.inl (strStartsWith_append base href)

/-- Every item an Alberta node yields carries a resolved locator. -/
theorem albertaEntryOf_abs {node : AlbertaNode} {it : Item}
    (h : albertaEntryOf node = some it) :
    strStartsWith it.locator albertaBase = true ∨
      strStartsWith it.locator "http" = true := by
  unfold albertaEntryOf at h
  split at h
  · split at h
    · split at h
      · injection h with h
        subst h
        exact resolveURL_abs albertaBase _
      · cases h
    · cases h
  · cases h

/-- Every item a Strathcona link yields carries a resolved locator. -/
theorem scEntryOf_abs {l : SCLink} {it : Item}
    (h : scEntryOf l = some it) :
    strStartsWith it.locator scBase = true ∨
      strStartsWith it.locator "http" = true := by
  unfold scEntryOf at h
  dsimp only at h
  split at h
  · split at h
    · injection h with h
      subst h
      exact resolveURL_abs scBase _
    · cases h
  · cases h

/-- Claim C1 (code_bug evidence): the extraction strategies do NOT return
items sorted descending by normalized date.  The sort key of
`get_latest_info` is `(year, month-STRING, day)`, so on the concrete pages
`c1AlbertaMarkup` and `c1SCMarkup` the item dated (2025, 9, 1) is returned
BEFORE the item dated (2025, 10, 2): the first item's normalized date is
strictly smaller than the second's, violating descending order (and the
code's own comment "Sort by date (newest first)"). -/
theorem sort_is_by_month_string_not_normalized_date :
    (albertaLatestItems c1AlbertaMarkup).map
        (fun it => (it.year, albertaMonthNum it.month, it.day)) =
      [(2025, 9, 1), (2025, 10, 2)] ∧
    tripleLtP (2025, 9, 1) (2025, 10, 2) ∧
    (strathconaLatestItems c1SCMarkup).map
        (fun it => (it.year, strathconaMonthNum it.month, it.day)) =
      [(2025, 9, 1), (2025, 10, 2)] := by
  refine ⟨by decide, by decide, by decide⟩

/-- Claim C3 (counterexample): with no reference and an EMPTY item list,
`check_for_new` returns `(True, [])`, not `has_new = false` as claimed:
`return True, [latest] if latest else []` groups as
`(True, [latest] if latest else [])`. -/
theorem empty_items_no_reference_returns_true :
    albertaCheckForNew (Except.ok ([] : AlbertaMarkup)) none = (true, []) ∧
    (albertaCheckForNew (Except.ok ([] : AlbertaMarkup)) none).1 ≠ false ∧
    strathconaCheckForNew (Except.ok ([] : List SCLink)) none = (true, []) := by
  refine ⟨rfl, by decide, rfl⟩

/-- Claim C3 (amended): with an absent reference, `check_for_new` returns
`has_new = true` UNCONDITIONALLY, and `new_items` is the first element of
the extracted list when non-empty and `[]` when the list is empty. -/
theorem no_reference_returns_true_and_first_item (a : AlbertaMarkup) (t : HocMarkup)
    (s : List SCLink) :
    albertaCheckForNew (Except.ok a) none = (true, (albertaLatestItems a).take 1) ∧
    hocCheckForNew (Except.ok t) none = (true, (hocLatestItems t).take 1) ∧
    strathconaCheckForNew (Except.ok s) none = (true, (strathconaLatestItems s).take 1) := by
  refine ⟨?_, ?_, ?_⟩ <;>
    simp only [albertaCheckForNew, hocCheckForNew, strathconaCheckForNew, noRefPair_eq]

/-- Claim C4 (counterexample): a failed fetch IS conflated with "nothing
new": `check_all` writes no error field, and its result for a failing
Alberta fetch is identical — entry for entry — to its result for a
successful fetch of a page with no items, under the same present
reference. -/
theorem fetch_failure_indistinguishable_from_no_news :
    check_all "T"
        ⟨Except.error "boom", Except.ok (none : HocMarkup), Except.ok ([] : List SCLink)⟩
        (some c4Ref) =
      check_all "T"
        ⟨Except.ok ([] : AlbertaMarkup), Except.ok none, Except.ok []⟩
        (some c4Ref) := by
  rfl

/-- Claim C4 (amended): a source whose fetch fails contributes the entry
`{name, has_new_content := false, new_items := []}` (with no error field,
since `check_all` entries carry none), and the other two sources' entries
are exactly what they would be under any other fetch outcome for the
failing source. -/
theorem fetch_failure_false_empty_and_isolated (e : String)
    (af : Except String AlbertaMarkup) (hf : Except String HocMarkup)
    (sf : Except String (List SCLink)) (r : Option PyDT) (t : String) :
    (check_all t ⟨Except.error e, hf, sf⟩ r).governments =
      ⟨"Alberta Legislature", false, []⟩ ::
        ((check_all t ⟨af, hf, sf⟩ r).governments.drop 1) ∧
    (check_all t ⟨af, Except.error e, sf⟩ r).governments =
      (check_all t ⟨af, hf, sf⟩ r).governments.take 1 ++
        ⟨"House of Commons (Canada)", false, []⟩ ::
          ((check_all t ⟨af, hf, sf⟩ r).governments.drop 2) ∧
    (check_all t ⟨af, hf, Except.error e⟩ r).governments =
      (check_all t ⟨af, hf, sf⟩ r).governments.take 2 ++
        [⟨"Strathcona County Council", false, []⟩] := by
  refine ⟨rfl, rfl, rfl⟩

/-- Claim C7: every extraction strategy returns at most 5 items, and the
House of Commons strategy — which looks only at the title text — at most
one. -/
theorem extraction_caps_five_and_federal_one (a : AlbertaMarkup) (t : HocMarkup)
    (s : List SCLink) :
    (albertaLatestItems a).length ≤ 5 ∧
    (hocLatestItems t).length ≤ 1 ∧
    (strathconaLatestItems s).length ≤ 5 := by
  refine ⟨List.length_take_le 5 _, ?_, List.length_take_le 5 _⟩
  unfold hocLatestItems
  split
  · simp
  · split <;> simp

/-- Claim C9: `check_all` is a pure function of the fetched markup and the
reference: its governments list does not depend on the clock reading, so
two invocations over the same fetch results and reference agree everywhere
but in `checked_at` (which is the clock input itself). -/
theorem check_all_deterministic_modulo_timestamp (t1 t2 : String) (f : FetchResults)
    (r : Option PyDT) :
    (check_all t1 f r).governments = (check_all t2 f r).governments ∧
    (check_all t1 f r).checked_at = t1 := by
  exact ⟨rfl, rfl⟩

/-- The House of Commons extraction never yields more than one item. -/
theorem hocLatestItems_length (t : HocMarkup) : (hocLatestItems t).length ≤ 1 := by
  unfold hocLatestItems
  split
  · simp
  · split <;> simp

/-- With a reference, `check_for_new`'s flag is the non-emptiness of its
item list, and the new items are a sublist of the inspected items. -/
theorem checkWithRef_inv (mn : String → Nat) (items : List Item) (r : PyDT) :
    ((checkWithRef mn items r).1 = true ↔ (checkWithRef mn items r).2 ≠ []) ∧
    (checkWithRef mn items r).2.Sublist items := by
  constructor
  · show decide (0 < (newItemsFor mn items r).length) = true ↔ _
    rw [decide_eq_true_eq]
    exact List.length_pos
  · show (newItemsFor mn items r).Sublist items
    unfold newItemsFor
    exact List.filter_sublist _

/-- Claim C2: with a present reference, the evaluation loop returns exactly
the items whose normalized `(year, month, day)` date is strictly greater
than the reference's date triple — the reference's time-of-day cannot
matter — and it returns them by `filter`, so in the input's relative
order. -/
theorem evaluate_with_reference_is_strict_date_filter (items : List Item) (r : PyDT)
    (hv : items.all
        (fun it => (pyDatetime it.year (albertaMonthNum it.month) it.day).isSome) = true) :
    (checkWithRef albertaMonthNum items r).2 =
      items.filter (fun it =>
        decide (tripleLtP (r.year, r.month, r.day)
          (it.year, albertaMonthNum it.month, it.day))) ∧
    (checkWithRef albertaMonthNum items r).2.Sublist items := by
  rw [List.all_eq_true] at hv
  constructor
  · show newItemsFor albertaMonthNum items r = _
    unfold newItemsFor
    apply List.filter_congr
    intro it hit
    obtain ⟨dt, hdt⟩ := Option.isSome_iff_exists.mp (hv it hit)
    rw [pyDatetime_some hdt] at hdt
    rw [hdt]
    show decide (pyDTltP r ⟨it.year, albertaMonthNum it.month, it.day, 0⟩) = _
    simp only [decide_eq_decide]
    exact pyDTlt_midnight_iff r _ _ _
  · exact (checkWithRef_inv albertaMonthNum items r).2

/-- Claim C2 witness: §8's worked example — items dated Oct 20 and Sep 15,
2025 against the reference (2025, 10, 1) keep exactly the Oct 20 item. -/
theorem evaluate_with_reference_is_strict_date_filter_witness :
    (c2Items.all
        (fun it => (pyDatetime it.year (albertaMonthNum it.month) it.day).isSome) = true) ∧
    ((checkWithRef albertaMonthNum c2Items c2Ref).2 =
      c2Items.filter (fun it =>
        decide (tripleLtP (c2Ref.year, c2Ref.month, c2Ref.day)
          (it.year, albertaMonthNum it.month, it.day))) ∧
    (checkWithRef albertaMonthNum c2Items c2Ref).2.Sublist c2Items) :=
  ⟨by decide, evaluate_with_reference_is_strict_date_filter c2Items c2Ref (by decide)⟩

/-- Claim C5: an unrecognized month spelling normalizes to month 1 rather
than raising, and an item whose normalized date builds no valid `datetime`
is silently dropped by the evaluation loop, which continues with the items
before and after it. -/
theorem unknown_month_defaults_and_invalid_item_skipped (m : String) (bad : Item)
    (r : PyDT) (xs ys : List Item)
    (h1 : lookupStr m albertaMonthMap = none)
    (h2 : pyDatetime bad.year (albertaMonthNum bad.month) bad.day = none) :
    albertaMonthNum m = 1 ∧
    newItemsFor albertaMonthNum (xs ++ bad :: ys) r =
      newItemsFor albertaMonthNum xs r ++ newItemsFor albertaMonthNum ys r := by
  constructor
  · unfold albertaMonthNum monthNumOf
    rw [h1]
    rfl
  · unfold newItemsFor
    rw [List.filter_append, List.filter_cons]
    have hb : (match pyDatetime bad.year (albertaMonthNum bad.month) bad.day with
        | some d => decide (pyDTltP r d)
        | none => false) = false := by rw [h2]
    simp [hb]

/-- Claim C5 witness: the spelling "Octember" is unrecognized, the item
`c5Bad` (February 30) is dropped, and the evaluation of the surrounding
valid items proceeds. -/
theorem unknown_month_defaults_and_invalid_item_skipped_witness :
    lookupStr "Octember" albertaMonthMap = none ∧
    pyDatetime c5Bad.year (albertaMonthNum c5Bad.month) c5Bad.day = none ∧
    (albertaMonthNum "Octember" = 1 ∧
      newItemsFor albertaMonthNum (c5Xs ++ c5Bad :: c5Ys) c5Ref =
        newItemsFor albertaMonthNum c5Xs c5Ref ++ newItemsFor albertaMonthNum c5Ys c5Ref) :=
  ⟨by decide, by decide,
    unknown_month_defaults_and_invalid_item_skipped "Octember" c5Bad c5Ref c5Xs c5Ys
      (by decide) (by decide)⟩

/-- Claim C6 (counterexample): the tables do NOT all accept both full month
names and three-letter abbreviations — the Alberta table rejects the full
name "October" and the House of Commons table rejects the abbreviation
"Oct". -/
theorem alberta_federal_tables_reject_one_spelling_kind :
    lookupStr "October" albertaMonthMap = none ∧
    lookupStr "Oct" hocMonthMap = none := by
  exact ⟨by decide, by decide⟩

/-- Claim C6 (amended): each table case-sensitively recognizes its own fixed
spelling set (Alberta: abbreviations; House of Commons: full names;
Strathcona: both), and on recognized spellings normalization is faithful to
the true calendar: the normalized value IS the true `(year, month, day)`
triple — hence injective on true dates — and the lexicographic order of
normalized values agrees with the true calendar order. -/
theorem recognized_month_normalization_faithful (T : List (String × Nat))
    (s1 s2 : String) (n1 n2 d1 y1 d2 y2 : Nat)
    (hT : T = albertaMonthMap ∨ T = hocMonthMap ∨ T = strathconaMonthMap)
    (h1 : lookupStr s1 T = some n1) (h2 : lookupStr s2 T = some n2) :
    normDate T s1 d1 y1 = (y1, n1, d1) ∧ canonMonthNum s1 = some n1 ∧
    normDate T s2 d2 y2 = (y2, n2, d2) ∧ canonMonthNum s2 = some n2 ∧
    (tripleLtP (normDate T s1 d1 y1) (normDate T s2 d2 y2) ↔
      tripleLtP (y1, n1, d1) (y2, n2, d2)) := by
  have e1 : normDate T s1 d1 y1 = (y1, n1, d1) := by
    unfold normDate monthNumOf
    rw [h1]
    rfl
  have e2 : normDate T s2 d2 y2 = (y2, n2, d2) := by
    unfold normDate monthNumOf
    rw [h2]
    rfl
  have hc1 : canonMonthNum s1 = some n1 := by
    have hm := mem_of_lookupStr h1
    rcases hT with rfl | rfl | rfl
    · exact canon_alberta _ hm
    · exact canon_hoc _ hm
    · exact canon_strathcona _ hm
  have hc2 : canonMonthNum s2 = some n2 := by
    have hm := mem_of_lookupStr h2
    rcases hT with rfl | rfl | rfl
    · exact canon_alberta _ hm
    · exact canon_hoc _ hm
    · exact canon_strathcona _ hm
  exact ⟨e1, hc1, e2, hc2, by rw [e1, e2]⟩

/-- Claim C6 witness: in the Strathcona table, "Sep" and "October" are
recognized, normalize to months 9 and 10, and (2025, Sep 30) compares below
(2025, Oct 2) exactly as the true calendar orders them. -/
theorem recognized_month_normalization_faithful_witness :
    (strathconaMonthMap = albertaMonthMap ∨ strathconaMonthMap = hocMonthMap ∨
      strathconaMonthMap = strathconaMonthMap) ∧
    lookupStr "Sep" strathconaMonthMap = some 9 ∧
    lookupStr "October" strathconaMonthMap = some 10 ∧
    (normDate strathconaMonthMap "Sep" 30 2025 = (2025, 9, 30) ∧
      canonMonthNum "Sep" = some 9 ∧
      normDate strathconaMonthMap "October" 2 2025 = (2025, 10, 2) ∧
      canonMonthNum "October" = some 10 ∧
      (tripleLtP (normDate strathconaMonthMap "Sep" 30 2025)
          (normDate strathconaMonthMap "October" 2 2025) ↔
        tripleLtP (2025, 9, 30) (2025, 10, 2))) :=
  ⟨Or.inr (Or.inr rfl), by decide, by decide,
    recognized_month_normalization_faithful strathconaMonthMap "Sep" "October" 9 10 30 2025 2 2025
      (Or.inr (Or.inr rfl)) (by decide) (by decide)⟩

/-- Claim C8: every returned locator is absolute — it starts with the
source's fixed base origin (relative hrefs are resolved against it) or with
the `http` prefix the markup itself supplied; the House of Commons locator
is the fixed debates URL under its base. -/
theorem locators_absolute (a : AlbertaMarkup) (t : HocMarkup) (s : List SCLink)
    (x1 x2 x3 : Item)
    (h1 : x1 ∈ albertaLatestItems a) (h2 : x2 ∈ hocLatestItems t)
    (h3 : x3 ∈ strathconaLatestItems s) :
    (strStartsWith x1.locator albertaBase = true ∨
      strStartsWith x1.locator "http" = true) ∧
    strStartsWith x2.locator hocBase = true ∧
    (strStartsWith x3.locator scBase = true ∨
      strStartsWith x3.locator "http" = true) := by
  refine ⟨?_, ?_, ?_⟩
  · unfold albertaLatestItems at h1
    have hm := mem_pySortDesc (List.mem_of_mem_take h1)
    obtain ⟨node, _, heq⟩ := List.mem_filterMap.mp hm
    exact albertaEntryOf_abs heq
  · unfold hocLatestItems at h2
    split at h2
    · cases h2
    · split at h2
      · rw [List.mem_singleton] at h2
        subst h2
        exact strStartsWith_append hocBase _
      · cases h2
  · unfold strathconaLatestItems at h3
    have hm := mem_pySortDesc (List.mem_of_mem_take h3)
    obtain ⟨l, _, heq⟩ := List.mem_filterMap.mp hm
    exact scEntryOf_abs heq

/-- Claim C8 witness: one concrete page per source — the Alberta and
Strathcona relative hrefs come back resolved against their base origins,
the House of Commons item carries the fixed debates URL. -/
theorem locators_absolute_witness :
    w8ItemA ∈ albertaLatestItems w8Alberta ∧
    w8ItemH ∈ hocLatestItems w8Hoc ∧
    w8ItemS ∈ strathconaLatestItems w8SC ∧
    ((strStartsWith w8ItemA.locator albertaBase = true ∨
        strStartsWith w8ItemA.locator "http" = true) ∧
      strStartsWith w8ItemH.locator hocBase = true ∧
      (strStartsWith w8ItemS.locator scBase = true ∨
        strStartsWith w8ItemS.locator "http" = true)) :=
  ⟨by decide, by decide, by decide,
    locators_absolute w8Alberta w8Hoc w8SC w8ItemA w8ItemH w8ItemS
      (by decide) (by decide) (by decide)⟩

/-- Claim C10: with a present reference, each scraper's `has_new` flag is
true exactly when its `new_items` is non-empty, and `new_items` is a
sublist — in extraction order — of the at most 5 items that same fetch
extracted. -/
theorem check_with_reference_invariants (af : Except String AlbertaMarkup)
    (hf : Except String HocMarkup) (sf : Except String (List SCLink)) (r : PyDT) :
    (((albertaCheckForNew af (some r)).1 = true ↔
        (albertaCheckForNew af (some r)).2 ≠ []) ∧
      (albertaCheckForNew af (some r)).2.Sublist (albertaItemsOf af) ∧
      (albertaItemsOf af).length ≤ 5) ∧
    (((hocCheckForNew hf (some r)).1 = true ↔ (hocCheckForNew hf (some r)).2 ≠ []) ∧
      (hocCheckForNew hf (some r)).2.Sublist (hocItemsOf hf) ∧
      (hocItemsOf hf).length ≤ 5) ∧
    (((strathconaCheckForNew sf (some r)).1 = true ↔
        (strathconaCheckForNew sf (some r)).2 ≠ []) ∧
      (strathconaCheckForNew sf (some r)).2.Sublist (strathconaItemsOf sf) ∧
      (strathconaItemsOf sf).length ≤ 5) := by
  refine ⟨?_, ?_, ?_⟩
  · cases af with
    | error e => simp [albertaCheckForNew, albertaItemsOf]
    | ok m =>
      exact ⟨(checkWithRef_inv albertaMonthNum (albertaLatestItems m) r).1,
        (checkWithRef_inv albertaMonthNum (albertaLatestItems m) r).2,
        List.length_take_le 5 _⟩
  · cases hf with
    | error e => simp [hocCheckForNew, hocItemsOf]
    | ok t =>
      exact ⟨(checkWithRef_inv hocMonthNum (hocLatestItems t) r).1,
        (checkWithRef_inv hocMonthNum (hocLatestItems t) r).2,
        Nat.le_trans (hocLatestItems_length t) (by decide)⟩
  · cases sf with
    | error e => simp [strathconaCheckForNew, strathconaItemsOf]
    | ok m =>
      exact ⟨(checkWithRef_inv strathconaMonthNum (strathconaLatestItems m) r).1,
        (checkWithRef_inv strathconaMonthNum (strathconaLatestItems m) r).2,
        List.length_take_le 5 _⟩
